import Mathlib

/-!
Verification of run_after_1s.

A verification development for `charm/run_after_1s/run_after_1s.c`, the delayed
executor: it checks its argument count, sleeps one second, and replaces its own
process image with the program named by its first argument.

The program is embedded as a state-passing function over a process state.  Every
call the source makes into the C library is a function on that state which appends
one observable event to the trace of the run.  The operating system is an explicit
parameter: it decides what a process-replace request does and how an error number
is described.

The argument array is modelled by the list of strings `argv[0] .. argv[argc-1]`;
the entry `argv[argc]` is the null pointer that ISO C puts behind them, and a
pointer is an `Option String` with `none` for the null pointer.
-/

namespace RunAfter1s

/-! ## Data model -/

/-- The two standard streams a run can write to. -/
inductive Stream where
  | stdout
  | stderr
  deriving DecidableEq, Repr

/-- What a program that took over the process image does: the text it writes, in
order, and the status it ends with. -/
structure Behaviour where
  writes : List (Stream × String)
  status : Int
  deriving DecidableEq, Repr

/-- One observable effect of the wrapper.  A write whose text is `none` is a write
through a format that the model of the formatter does not cover. -/
inductive Event where
  | write (stream : Stream) (text : Option String)
  | sleep (seconds : Nat)
  | execvp (file : Option String) (argv : List String) (env : List String)
  | _exit (status : Int)
  deriving DecidableEq, Repr

/-- How a process-replace request ends: the image is replaced and the call never
returns, or the call returns `rc` to the caller after setting `errno`. -/
inductive ExecOutcome where
  | replaced (b : Behaviour)
  | returned (rc : Int) (errno : Int)
  deriving DecidableEq, Repr

/-- The operating system and C library facts the program depends on. -/
structure OS where
  execvp : Option String → List String → List String → ExecOutcome
  strerror : Int → String

/-- The state of the process that `main` can read or change through the library. -/
structure Proc where
  environ : List String
  errno : Int
  trace : List Event
  deriving DecidableEq, Repr

/-- How a run ends: with an exit of the wrapper itself, or as another program. -/
inductive Ending where
  | exited (status : Int)
  | replaced (b : Behaviour)
  deriving DecidableEq, Repr

/-- A finished run: the effects of the wrapper, in order, and how it ended. -/
structure Run where
  trace : List Event
  ending : Ending
  deriving DecidableEq, Repr

/-- Value of the macro `EXIT_FAILURE` of `<stdlib.h>` (POSIX requires it to be
non-zero; the C library of the target platform defines it as 1). -/
def EXIT_FAILURE : Int := 1

/-- The part of an exit status that the parent of the process can see. -/
def waitStatus (status : Int) : Int := status % 256

/-- The process state at the entry of `main`, started with environment `env`. -/
def Proc.start (env : List String) : Proc :=
  { environ := env, errno := 0, trace := [] }

/-- Append one event to the trace. -/
def Proc.emit (p : Proc) (e : Event) : Proc :=
  { p with trace := p.trace ++ [e] }

/-! ## The C library calls used by `main` -/

/-- The text the C library of the target platform writes for a `%s` conversion
whose argument is the null pointer. -/
def nullText : String := "(null)"

/-- The text produced by a format string with `%s` conversions.  A `%s` whose
argument is the null pointer is written as `nullText`, as the C library of the
target platform does; a `%s` without an argument and conversions other than `%s`
and `%%` are not modelled. -/
def cformat : List Char → List (Option String) → Option (List Char)
  | [], _ => some []
  | '%' :: 's' :: fmt, some a :: args => (cformat fmt args).map (fun t => a.data ++ t)
  | '%' :: 's' :: fmt, none :: args => (cformat fmt args).map (fun t => nullText.data ++ t)
  | '%' :: 's' :: _, [] => none
  | '%' :: '%' :: fmt, args => (cformat fmt args).map (fun t => '%' :: t)
  | '%' :: _, _ => none
  | c :: fmt, args => (cformat fmt args).map (fun t => c :: t)

/-- Library call `fprintf(stream, fmt, args...)`: one write of the formatted text. -/
def fprintf (stream : Stream) (fmt : String) (args : List (Option String)) (p : Proc) : Proc :=
  p.emit (Event.write stream ((cformat fmt.data args).map String.mk))

/-- Library call `sleep(seconds)`; the source discards the value it returns. -/
def sleep (seconds : Nat) (p : Proc) : Proc :=
  p.emit (Event.sleep seconds)

/-- Library call `perror(s)`: writes `s`, a colon and a blank (when `s` is not
empty), then the description of the current `errno` and a newline, to standard
error. -/
def perror (os : OS) (s : String) (p : Proc) : Proc :=
  p.emit (Event.write Stream.stderr
    (some ((if s = "" then "" else s ++ ": ") ++ os.strerror p.errno ++ "\n")))

/-- Library call `execvp(file, argv)`: asks the operating system to replace the
process image, handing over the current environment.  Returns the new process state
and the value returned to the caller, or `Sum.inl` when the image was replaced. -/
def execvp (os : OS) (file : Option String) (argv : List String) (p : Proc) :
    Proc × (Behaviour ⊕ Int) :=
  let q := p.emit (Event.execvp file argv p.environ)
  match os.execvp file argv p.environ with
  | ExecOutcome.replaced b => (q, Sum.inl b)
  | ExecOutcome.returned rc e => ({ q with errno := e }, Sum.inr rc)

/-- Library call `_exit(status)`: ends the process; nothing follows it. -/
def _exit (status : Int) (p : Proc) : Run :=
  { trace := (p.emit (Event._exit status)).trace, ending := Ending.exited status }

/-! ## The program -/

/-- The function `main` of `run_after_1s.c`.  `argv[0]` and `argv[1]` are the
pointers read from the argument array and `&argv[1]` is the null-terminated
vector that starts at its second entry. -/
def main (os : OS) (argc : Int) (argv : List String) (p : Proc) : Run :=
  if argc < 2 then
    let p := fprintf Stream.stderr "Usage is: %s [ARGUMENTS]...\n" [argv[0]?] p
    _exit EXIT_FAILURE p
  else
    let p := sleep 1 p
    match execvp os argv[1]? (argv.drop 1) p with
    | (p, Sum.inl b) => { trace := p.trace, ending := Ending.replaced b }
    | (p, Sum.inr rc) =>
      let p := if rc = -1 then perror os "execvp failed" p else p
      _exit EXIT_FAILURE p

/-- A sample operating system: `echo` prints its arguments and succeeds, every
other program name is not found (error number 2). -/
def sampleOS : OS where
  execvp := fun file argv _ =>
    if file = some "echo" then
      ExecOutcome.replaced
        { writes := [(Stream.stdout, " ".intercalate (argv.drop 1) ++ "\n")], status := 0 }
    else ExecOutcome.returned (-1) 2
  strerror := fun e => if e = 2 then "No such file or directory" else "Unknown error"

/-! ## Reading a run -/

/-- Whether an event is a delay request. -/
def Event.isSleep : Event → Bool
  | Event.sleep _ => true
  | _ => false

/-- Whether an event is a process-replace request. -/
def Event.isExec : Event → Bool
  | Event.execvp _ _ _ => true
  | _ => false

/-- Whether an event is a write to a standard stream. -/
def Event.isWrite : Event → Bool
  | Event.write _ _ => true
  | _ => false

/-- Whether an event is an exit of the wrapper. -/
def Event.isExit : Event → Bool
  | Event._exit _ => true
  | _ => false

/-- The stream and text of a write event. -/
def Event.written : Event → Option (Stream × Option String)
  | Event.write s t => some (s, t)
  | _ => none

/-- The environment handed over by a process-replace request. -/
def Event.execEnv : Event → Option (List String)
  | Event.execvp _ _ env => some env
  | _ => none

/-- Everything written during a run, in order: what the wrapper wrote itself,
then what the program that replaced it wrote. -/
def Run.writes (r : Run) : List (Stream × Option String) :=
  r.trace.filterMap Event.written ++
    match r.ending with
    | Ending.exited _ => []
    | Ending.replaced b => b.writes.map (fun w => (w.1, some w.2))

/-- The exit status of a run: the wrapper's own, or that of the program that
replaced it. -/
def Run.status (r : Run) : Int :=
  match r.ending with
  | Ending.exited s => s
  | Ending.replaced b => b.status

/-! ## The state machine of the specification

The states are those named by the specification; the action of each state is the
part of `main` it stands for: `ValidateArgs` is the test `argc < 2`, `UsageError`
the two statements guarded by it, `Sleeping` the call of `sleep`, `Exec` the call
of `execvp`, `ExecFailed` the statements after that call, and `Replaced` the
process after a call that did not return. -/

/-- The state names of the specification. -/
inductive Phase where
  | Start
  | ValidateArgs
  | Sleeping
  | Exec
  | Replaced
  | ExecFailed
  | UsageError
  deriving DecidableEq, Repr

/-- A state of the machine together with the data that is live in it. -/
inductive Config where
  | Start (p : Proc)
  | ValidateArgs (p : Proc)
  | Sleeping (p : Proc)
  | Exec (p : Proc)
  | Replaced (p : Proc) (b : Behaviour)
  | ExecFailed (p : Proc) (rc : Int)
  | UsageError (p : Proc)
  deriving DecidableEq, Repr

/-- The state name of a configuration. -/
def Config.phase : Config → Phase
  | Config.Start _ => Phase.Start
  | Config.ValidateArgs _ => Phase.ValidateArgs
  | Config.Sleeping _ => Phase.Sleeping
  | Config.Exec _ => Phase.Exec
  | Config.Replaced _ _ => Phase.Replaced
  | Config.ExecFailed _ _ => Phase.ExecFailed
  | Config.UsageError _ => Phase.UsageError

/-- The process state of a configuration. -/
def Config.proc : Config → Proc
  | Config.Start p => p
  | Config.ValidateArgs p => p
  | Config.Sleeping p => p
  | Config.Exec p => p
  | Config.Replaced p _ => p
  | Config.ExecFailed p _ => p
  | Config.UsageError p => p

/-- One transition: the action of the current state, leading to the next state or
to the end of the run. -/
def step (os : OS) (argc : Int) (argv : List String) : Config → Config ⊕ Run
  | Config.Start p => Sum.inl (Config.ValidateArgs p)
  | Config.ValidateArgs p =>
    if argc < 2 then Sum.inl (Config.UsageError p) else Sum.inl (Config.Sleeping p)
  | Config.UsageError p =>
    Sum.inr (_exit EXIT_FAILURE
      (fprintf Stream.stderr "Usage is: %s [ARGUMENTS]...\n" [argv[0]?] p))
  | Config.Sleeping p => Sum.inl (Config.Exec (sleep 1 p))
  | Config.Exec p =>
    match execvp os argv[1]? (argv.drop 1) p with
    | (q, Sum.inl b) => Sum.inl (Config.Replaced q b)
    | (q, Sum.inr rc) => Sum.inl (Config.ExecFailed q rc)
  | Config.ExecFailed p rc =>
    Sum.inr (_exit EXIT_FAILURE (if rc = -1 then perror os "execvp failed" p else p))
  | Config.Replaced p b => Sum.inr { trace := p.trace, ending := Ending.replaced b }

/-- Run the machine for at most `fuel` transitions: the configurations visited,
in order, and the finished run; `none` when the fuel does not suffice. -/
def runMachine (os : OS) (argc : Int) (argv : List String) :
    Nat → Config → Option (List Config × Run)
  | 0, _ => none
  | fuel + 1, c =>
    match step os argc argv c with
    | Sum.inr r => some ([c], r)
    | Sum.inl d => (runMachine os argc argv fuel d).map (fun vr => (c :: vr.1, vr.2))

/-- The three paths through the state machine that the specification allows. -/
def linearPaths : List (List Phase) :=
  [ [Phase.Start, Phase.ValidateArgs, Phase.UsageError],
    [Phase.Start, Phase.ValidateArgs, Phase.Sleeping, Phase.Exec, Phase.Replaced],
    [Phase.Start, Phase.ValidateArgs, Phase.Sleeping, Phase.Exec, Phase.ExecFailed] ]

/-- A second sample operating system, whose process-replace call returns 0 to the
caller instead of replacing the image. -/
def returningOS : OS where
  execvp := fun _ _ _ => ExecOutcome.returned 0 0
  strerror := fun _ => "Success"

/-! ## Shape of a run -/

theorem usage_text (a : String) :
    (cformat "Usage is: %s [ARGUMENTS]...\n".data [some a]).map String.mk
      = some ("Usage is: " ++ a ++ " [ARGUMENTS]...\n") := by
  rfl

theorem usage_text_null :
    (cformat "Usage is: %s [ARGUMENTS]...\n".data [none]).map String.mk
      = some ("Usage is: " ++ nullText ++ " [ARGUMENTS]...\n") := by
  rfl

/-- The run on the usage branch. -/
theorem main_usage (os : OS) (argc : Int) (argv env : List String) (h : argc < 2) :
    main os argc argv (Proc.start env) =
      { trace := [Event.write Stream.stderr
                    ((cformat "Usage is: %s [ARGUMENTS]...\n".data [argv[0]?]).map String.mk),
                  Event._exit EXIT_FAILURE],
        ending := Ending.exited EXIT_FAILURE } := by
  simp [main, h, fprintf, _exit, Proc.emit, Proc.start]

/-- The run when the process image is replaced. -/
theorem main_replaced (os : OS) (argc : Int) (argv env : List String) (b : Behaviour)
    (h : 2 ≤ argc) (hok : os.execvp argv[1]? (argv.drop 1) env = ExecOutcome.replaced b) :
    main os argc argv (Proc.start env) =
      { trace := [Event.sleep 1, Event.execvp argv[1]? (argv.drop 1) env],
        ending := Ending.replaced b } := by
  have h2 : ¬ argc < 2 := not_lt.mpr h
  simp only [main, if_neg h2, sleep, execvp, Proc.emit, Proc.start, hok, List.nil_append,
    List.singleton_append]

/-- The run when the process-replace call returns. -/
theorem main_returned (os : OS) (argc : Int) (argv env : List String) (rc e : Int)
    (h : 2 ≤ argc) (hret : os.execvp argv[1]? (argv.drop 1) env = ExecOutcome.returned rc e) :
    main os argc argv (Proc.start env) =
      { trace := [Event.sleep 1, Event.execvp argv[1]? (argv.drop 1) env] ++
          (if rc = -1 then
            [Event.write Stream.stderr (some ("execvp failed: " ++ os.strerror e ++ "\n"))]
           else []) ++ [Event._exit EXIT_FAILURE],
        ending := Ending.exited EXIT_FAILURE } := by
  have h2 : ¬ argc < 2 := not_lt.mpr h
  by_cases hrc : rc = -1
  · simp only [main, if_neg h2, sleep, execvp, perror, _exit, Proc.emit, Proc.start, hret,
      if_pos hrc, List.nil_append, List.singleton_append, List.cons_append]
    rfl
  · simp only [main, if_neg h2, sleep, execvp, perror, _exit, Proc.emit, Proc.start, hret,
      if_neg hrc, List.nil_append, List.singleton_append, List.cons_append, List.append_nil]

/-- The three outcomes of a run with at least one forwarded argument share their
first two events. -/
theorem main_forward_shape (os : OS) (argc : Int) (argv env : List String) (h : 2 ≤ argc) :
    ∃ rest, (main os argc argv (Proc.start env)).trace
        = Event.sleep 1 :: Event.execvp argv[1]? (argv.drop 1) env :: rest
      ∧ ∀ ev ∈ rest, ev.isSleep = false ∧ ev.isExec = false := by
  cases hout : os.execvp argv[1]? (argv.drop 1) env with
  | replaced b =>
    refine ⟨[], ?_, ?_⟩
    · rw [main_replaced os argc argv env b h hout]
    · intro ev hev
      cases hev
  | returned rc e =>
    rw [main_returned os argc argv env rc e h hout]
    by_cases hrc : rc = -1
    · refine ⟨[Event.write Stream.stderr (some ("execvp failed: " ++ os.strerror e ++ "\n")),
        Event._exit EXIT_FAILURE], ?_, ?_⟩
      · simp [hrc]
      · intro ev hev
        simp only [List.mem_cons, List.mem_singleton, List.not_mem_nil, or_false] at hev
        rcases hev with rfl | rfl <;> exact ⟨rfl, rfl⟩
    · refine ⟨[Event._exit EXIT_FAILURE], ?_, ?_⟩
      · simp [hrc]
      · intro ev hev
        simp only [List.mem_singleton] at hev
        subst hev
        exact ⟨rfl, rfl⟩

/-- In a trace whose only process-replace request is its second event, whatever
follows a process-replace request is the part after the second event. -/
theorem after_exec_unique (s ev : Event) {x : Event} {rest pre post : List Event}
    (hs : s.isExec = false) (hrest : ∀ a ∈ rest, a.isExec = false) (hev : ev.isExec = true)
    (h : s :: x :: rest = pre ++ ev :: post) : post = rest := by
  cases pre with
  | nil =>
    simp only [List.nil_append, List.cons.injEq] at h
    rw [← h.1, hs] at hev
    cases hev
  | cons a pre =>
    cases pre with
    | nil =>
      simp only [List.cons_append, List.nil_append, List.cons.injEq] at h
      exact h.2.2.symm
    | cons c pre =>
      simp only [List.cons_append, List.cons.injEq] at h
      have hmem : ev ∈ rest := by
        rw [h.2.2]
        exact List.mem_append_right _ (List.mem_cons_self _ _)
      rw [hrest ev hmem] at hev
      cases hev

/-- The machine on the usage branch. -/
theorem machine_usage (os : OS) (argc : Int) (argv : List String) (p : Proc) (k : Nat)
    (h : argc < 2) :
    runMachine os argc argv (k + 3) (Config.Start p)
      = some ([Config.Start p, Config.ValidateArgs p, Config.UsageError p],
          main os argc argv p) := by
  simp only [runMachine, step, if_pos h, main, Option.map]

/-- The machine when the process image is replaced. -/
theorem machine_replaced (os : OS) (argc : Int) (argv : List String) (p : Proc) (k : Nat)
    (b : Behaviour) (h : 2 ≤ argc)
    (hok : os.execvp argv[1]? (argv.drop 1) (sleep 1 p).environ = ExecOutcome.replaced b) :
    runMachine os argc argv (k + 5) (Config.Start p)
      = some ([Config.Start p, Config.ValidateArgs p, Config.Sleeping p,
            Config.Exec (sleep 1 p),
            Config.Replaced ((sleep 1 p).emit
              (Event.execvp argv[1]? (argv.drop 1) (sleep 1 p).environ)) b],
          main os argc argv p) := by
  have h2 : ¬ argc < 2 := not_lt.mpr h
  simp only [runMachine, step, if_neg h2, main, Option.map, execvp, hok]

/-- The machine when the process-replace call returns. -/
theorem machine_returned (os : OS) (argc : Int) (argv : List String) (p : Proc) (k : Nat)
    (rc e : Int) (h : 2 ≤ argc)
    (hret : os.execvp argv[1]? (argv.drop 1) (sleep 1 p).environ = ExecOutcome.returned rc e) :
    runMachine os argc argv (k + 5) (Config.Start p)
      = some ([Config.Start p, Config.ValidateArgs p, Config.Sleeping p,
            Config.Exec (sleep 1 p),
            Config.ExecFailed { (sleep 1 p).emit
              (Event.execvp argv[1]? (argv.drop 1) (sleep 1 p).environ) with errno := e } rc],
          main os argc argv p) := by
  have h2 : ¬ argc < 2 := not_lt.mpr h
  simp only [runMachine, step, if_neg h2, main, Option.map, execvp, hret]

theorem EXIT_FAILURE_ne_zero : EXIT_FAILURE ≠ 0 := by decide

theorem waitStatus_EXIT_FAILURE : waitStatus EXIT_FAILURE ≠ 0 := by decide

/-! ## Argument forwarding -/

/-- C1: for every invocation with `argc >= 2` the run makes exactly one
process-replace request; its program name is `argv[1]` and its argument vector is
`argv[1], ..., argv[argc-1]`, that is, the argument array without `argv[0]`, in
the original order. -/
theorem C1_exec_forwards_arguments (os : OS) (argc : Int) (argv env : List String)
    (hwf : argc = argv.length) (h : 2 ≤ argc) :
    ∃ self prog rest, argv = self :: prog :: rest ∧
      (main os argc argv (Proc.start env)).trace.filter Event.isExec
        = [Event.execvp (some prog) (prog :: rest) env] := by
  obtain ⟨tail, htr, htail⟩ := main_forward_shape os argc argv env h
  have hnil : tail.filter Event.isExec = [] := by
    rw [List.filter_eq_nil_iff]
    intro a ha
    simp [(htail a ha).2]
  match argv, hwf, htr with
  | [], hwf, _ =>
    simp only [List.length_nil, Nat.cast_zero] at hwf
    omega
  | [_], hwf, _ =>
    simp only [List.length_singleton, Nat.cast_one] at hwf
    omega
  | self :: prog :: rest, _, htr =>
    refine ⟨self, prog, rest, rfl, ?_⟩
    rw [htr]
    simp only [List.filter, Event.isSleep, Event.isExec]
    change Event.execvp _ _ env :: List.filter Event.isExec tail = _
    rw [hnil]
    simp

/-- Witness for C1: `run_after_1s prog a b c` requests `prog` with the vector
`[prog, a, b, c]`. -/
theorem C1_exec_forwards_arguments_witness :
    (5 : Int) = (["run_after_1s", "prog", "a", "b", "c"] : List String).length ∧
    (2 : Int) ≤ 5 ∧
    (main sampleOS 5 ["run_after_1s", "prog", "a", "b", "c"]
        (Proc.start ["HOME=/root"])).trace.filter Event.isExec
      = [Event.execvp (some "prog") ["prog", "a", "b", "c"] ["HOME=/root"]] := by
  refine ⟨by decide, by decide, ?_⟩
  obtain ⟨self, prog, rest, hargv, htr⟩ :=
    C1_exec_forwards_arguments sampleOS 5 ["run_after_1s", "prog", "a", "b", "c"]
      ["HOME=/root"] (by decide) (by decide)
  cases hargv
  exact htr

/-! ## Usage error -/

/-- C2: for every invocation with `argc = 1` the run writes exactly
`Usage is: <argv[0]> [ARGUMENTS]...` and a newline to standard error and then
exits with `EXIT_FAILURE`, which is not zero. -/
theorem C2_usage_message_and_failure (os : OS) (argc : Int) (argv env : List String)
    (hwf : argc = argv.length) (h : argc = 1) :
    ∃ self, argv = [self] ∧
      main os argc argv (Proc.start env) =
        { trace := [Event.write Stream.stderr
                      (some ("Usage is: " ++ self ++ " [ARGUMENTS]...\n")),
                    Event._exit EXIT_FAILURE],
          ending := Ending.exited EXIT_FAILURE } ∧
      EXIT_FAILURE ≠ 0 ∧ waitStatus EXIT_FAILURE ≠ 0 := by
  have hlt : argc < 2 := by omega
  match argv, hwf with
  | [], hwf =>
    simp only [List.length_nil, Nat.cast_zero] at hwf
    omega
  | [self], _ =>
    refine ⟨self, rfl, ?_, EXIT_FAILURE_ne_zero, waitStatus_EXIT_FAILURE⟩
    rw [main_usage os argc [self] env hlt]
    rfl
  | _ :: _ :: rest, hwf =>
    simp only [List.length_cons, Nat.cast_add, Nat.cast_one] at hwf
    omega

/-- Witness for C2: the program started as `/usr/bin/run_after_1s` alone. -/
theorem C2_usage_message_and_failure_witness :
    (1 : Int) = (["/usr/bin/run_after_1s"] : List String).length ∧
    main sampleOS 1 ["/usr/bin/run_after_1s"] (Proc.start []) =
      { trace := [Event.write Stream.stderr
                    (some "Usage is: /usr/bin/run_after_1s [ARGUMENTS]...\n"),
                  Event._exit 1],
        ending := Ending.exited 1 } := by
  refine ⟨by decide, ?_⟩
  obtain ⟨self, hargv, hrun, _⟩ :=
    C2_usage_message_and_failure sampleOS 1 ["/usr/bin/run_after_1s"] [] (by decide) rfl
  cases hargv
  exact hrun

/-- C4: for every invocation with `argc < 2` the trace of the run is the write of
the usage message to standard error followed by the exit; it contains no sleep
event and no exec event. -/
theorem C4_usage_branch_no_sleep_no_exec (os : OS) (argc : Int) (argv env : List String)
    (h : argc < 2) :
    (main os argc argv (Proc.start env)).trace =
        [Event.write Stream.stderr
            ((cformat "Usage is: %s [ARGUMENTS]...\n".data [argv[0]?]).map String.mk),
          Event._exit EXIT_FAILURE] ∧
      ∀ ev ∈ (main os argc argv (Proc.start env)).trace,
        ev.isSleep = false ∧ ev.isExec = false := by
  rw [main_usage os argc argv env h]
  refine ⟨rfl, ?_⟩
  intro ev hev
  simp only [List.mem_cons, List.mem_singleton, List.not_mem_nil, or_false] at hev
  rcases hev with rfl | rfl <;> exact ⟨rfl, rfl⟩

/-- Witness for C4: the program started without a target. -/
theorem C4_usage_branch_no_sleep_no_exec_witness :
    (1 : Int) < 2 ∧
    (main sampleOS 1 ["run_after_1s"] (Proc.start ["PATH=/bin"])).trace =
        [Event.write Stream.stderr
            ((cformat "Usage is: %s [ARGUMENTS]...\n".data
              [(["run_after_1s"] : List String)[0]?]).map String.mk),
          Event._exit EXIT_FAILURE] ∧
      ∀ ev ∈ (main sampleOS 1 ["run_after_1s"] (Proc.start ["PATH=/bin"])).trace,
        ev.isSleep = false ∧ ev.isExec = false :=
  ⟨by decide,
    C4_usage_branch_no_sleep_no_exec sampleOS 1 ["run_after_1s"] ["PATH=/bin"] (by decide)⟩

/-- C8: for every invocation with `argc = 0` the argument array is empty and
`argv[0]` is the null pointer that ends it; the run takes the same branch as for
`argc = 1`: it writes the usage message `Usage is: <argv[0]> [ARGUMENTS]...` and a
newline to standard error, the name being the text the formatter writes for a
null pointer, and then exits with `EXIT_FAILURE`, which is not zero.  For one
total argument the run is the same with that argument as the name. -/
theorem C8_usage_on_zero_arguments (os : OS) (argc : Int) (argv env : List String)
    (hwf : argc = argv.length) (h : argc = 0) :
    argv = [] ∧
      main os argc argv (Proc.start env) =
        { trace := [Event.write Stream.stderr
                      (some ("Usage is: " ++ nullText ++ " [ARGUMENTS]...\n")),
                    Event._exit EXIT_FAILURE],
          ending := Ending.exited EXIT_FAILURE } ∧
      EXIT_FAILURE ≠ 0 ∧ waitStatus EXIT_FAILURE ≠ 0 ∧
      ∀ self : String,
        main os 1 [self] (Proc.start env) =
          { trace := [Event.write Stream.stderr
                        (some ("Usage is: " ++ self ++ " [ARGUMENTS]...\n")),
                      Event._exit EXIT_FAILURE],
            ending := Ending.exited EXIT_FAILURE } := by
  have hlt : argc < 2 := by omega
  match argv, hwf with
  | [], _ =>
    refine ⟨rfl, ?_, EXIT_FAILURE_ne_zero, waitStatus_EXIT_FAILURE, ?_⟩
    · rw [main_usage os argc [] env hlt]
      rfl
    · intro self
      rw [main_usage os 1 [self] env (by decide)]
      rfl
  | _ :: rest, hwf =>
    simp only [List.length_cons, Nat.cast_add, Nat.cast_one] at hwf
    omega

/-- Witness for C8: the program started with an empty argument array. -/
theorem C8_usage_on_zero_arguments_witness :
    (0 : Int) = ([] : List String).length ∧
    main sampleOS 0 [] (Proc.start ["PATH=/bin"]) =
      { trace := [Event.write Stream.stderr (some "Usage is: (null) [ARGUMENTS]...\n"),
                  Event._exit 1],
        ending := Ending.exited 1 } :=
  ⟨by decide,
    (C8_usage_on_zero_arguments sampleOS 0 [] ["PATH=/bin"] (by decide) rfl).2.1⟩

/-! ## Failure of the process-replace call -/

/-- C3: for every invocation with `argc >= 2` in which the process-replace call
fails (returns -1 with any error number `e`), the run writes `execvp failed: `
followed by the description of `e` and a newline to standard error and then exits
with `EXIT_FAILURE`, which is not zero. -/
theorem C3_exec_failure_reported (os : OS) (argc : Int) (argv env : List String) (e : Int)
    (h : 2 ≤ argc)
    (hfail : os.execvp argv[1]? (argv.drop 1) env = ExecOutcome.returned (-1) e) :
    main os argc argv (Proc.start env) =
        { trace := [Event.sleep 1, Event.execvp argv[1]? (argv.drop 1) env,
            Event.write Stream.stderr (some ("execvp failed: " ++ os.strerror e ++ "\n")),
            Event._exit EXIT_FAILURE],
          ending := Ending.exited EXIT_FAILURE } ∧
      EXIT_FAILURE ≠ 0 ∧ waitStatus EXIT_FAILURE ≠ 0 := by
  refine ⟨?_, EXIT_FAILURE_ne_zero, waitStatus_EXIT_FAILURE⟩
  rw [main_returned os argc argv env (-1) e h hfail]
  rfl

/-- Witness for C3: `run_after_1s /nonexistent/binary` on the sample system. -/
theorem C3_exec_failure_reported_witness :
    (2 : Int) ≤ 2 ∧
    sampleOS.execvp (["run_after_1s", "/nonexistent/binary"] : List String)[1]?
        (List.drop 1 ["run_after_1s", "/nonexistent/binary"]) [] = ExecOutcome.returned (-1) 2 ∧
    main sampleOS 2 ["run_after_1s", "/nonexistent/binary"] (Proc.start []) =
      { trace := [Event.sleep 1,
          Event.execvp (some "/nonexistent/binary") ["/nonexistent/binary"] [],
          Event.write Stream.stderr (some "execvp failed: No such file or directory\n"),
          Event._exit 1],
        ending := Ending.exited 1 } :=
  ⟨by decide, by decide,
    (C3_exec_failure_reported sampleOS 2 ["run_after_1s", "/nonexistent/binary"] [] 2
      (by decide) (by decide)).1⟩

/-- C10: whenever the process-replace call returns to `main`, whatever value `rc`
it returns, the run ends with `_exit(EXIT_FAILURE)`; only the diagnostic depends
on `rc = -1`.  No run of the wrapper, on any path, ends with an exit of status 0. -/
theorem C10_returned_exec_always_fails (os : OS) (argc : Int) (argv env : List String)
    (rc e : Int) (h : 2 ≤ argc)
    (hret : os.execvp argv[1]? (argv.drop 1) env = ExecOutcome.returned rc e) :
    main os argc argv (Proc.start env) =
        { trace := [Event.sleep 1, Event.execvp argv[1]? (argv.drop 1) env] ++
            (if rc = -1 then
              [Event.write Stream.stderr (some ("execvp failed: " ++ os.strerror e ++ "\n"))]
             else []) ++ [Event._exit EXIT_FAILURE],
          ending := Ending.exited EXIT_FAILURE } ∧
      EXIT_FAILURE ≠ 0 ∧
      ∀ (os2 : OS) (argc2 : Int) (argv2 env2 : List String),
        (main os2 argc2 argv2 (Proc.start env2)).ending ≠ Ending.exited 0 ∧
        ∀ s, Event._exit s ∈ (main os2 argc2 argv2 (Proc.start env2)).trace →
          s = EXIT_FAILURE := by
  refine ⟨main_returned os argc argv env rc e h hret, EXIT_FAILURE_ne_zero, ?_⟩
  intro os2 argc2 argv2 env2
  by_cases h2 : argc2 < 2
  · rw [main_usage os2 argc2 argv2 env2 h2]
    refine ⟨by simp [EXIT_FAILURE], ?_⟩
    intro s hs
    simpa using hs
  · have h3 : 2 ≤ argc2 := not_lt.mp h2
    cases hout : os2.execvp argv2[1]? (argv2.drop 1) env2 with
    | replaced b =>
      rw [main_replaced os2 argc2 argv2 env2 b h3 hout]
      refine ⟨by simp, ?_⟩
      intro s hs
      simp at hs
    | returned rc2 e2 =>
      rw [main_returned os2 argc2 argv2 env2 rc2 e2 h3 hout]
      refine ⟨by simp [EXIT_FAILURE], ?_⟩
      intro s hs
      by_cases hrc : rc2 = -1
      · simpa [hrc] using hs
      · simpa [hrc] using hs

/-- Witness for C10: a process-replace call that returns 0 still ends in
`_exit(EXIT_FAILURE)`, without a diagnostic. -/
theorem C10_returned_exec_always_fails_witness :
    (2 : Int) ≤ 2 ∧
    returningOS.execvp (["run_after_1s", "true"] : List String)[1]?
        (List.drop 1 ["run_after_1s", "true"]) [] = ExecOutcome.returned 0 0 ∧
    main returningOS 2 ["run_after_1s", "true"] (Proc.start []) =
      { trace := [Event.sleep 1, Event.execvp (some "true") ["true"] [], Event._exit 1],
        ending := Ending.exited 1 } :=
  ⟨by decide, by decide,
    (C10_returned_exec_always_fails returningOS 2 ["run_after_1s", "true"] [] 0 0
      (by decide) (by decide)).1⟩

/-! ## Delay before the process-replace call -/

/-- C5: for every invocation with `argc >= 2` the trace starts with the request
to sleep 1 second, immediately followed by the process-replace request; nothing
is written before that request, the duration does not depend on the arguments,
and the sleep is the only one of the run. -/
theorem C5_one_second_sleep_before_exec (os : OS) (argc : Int) (argv env : List String)
    (h : 2 ≤ argc) :
    (∃ rest, (main os argc argv (Proc.start env)).trace
        = Event.sleep 1 :: Event.execvp argv[1]? (argv.drop 1) env :: rest
      ∧ ∀ ev ∈ rest, ev.isSleep = false ∧ ev.isExec = false) ∧
    (main os argc argv (Proc.start env)).trace.filter Event.isSleep = [Event.sleep 1] ∧
    ∀ pre f a v post,
      (main os argc argv (Proc.start env)).trace = pre ++ Event.execvp f a v :: post →
      pre = [Event.sleep 1] := by
  obtain ⟨rest, htr, hrest⟩ := main_forward_shape os argc argv env h
  refine ⟨⟨rest, htr, hrest⟩, ?_, ?_⟩
  · have hnil : rest.filter Event.isSleep = [] := by
      rw [List.filter_eq_nil_iff]
      intro a ha
      simp [(hrest a ha).1]
    rw [htr]
    simp only [List.filter, Event.isSleep]
    change Event.sleep 1 :: List.filter Event.isSleep rest = _
    rw [hnil]
  · intro pre f a v post hsplit
    rw [htr] at hsplit
    have hpost : post = rest :=
      after_exec_unique (Event.sleep 1) (Event.execvp f a v) rfl
          (fun x hx => (hrest x hx).2) rfl hsplit
    subst hpost
    have hlen := congrArg List.length hsplit
    simp only [List.length_cons, List.length_append] at hlen
    match pre, hsplit, hlen with
    | [], _, hlen => simp at hlen
    | [x], hsplit, _ =>
      simp only [List.cons_append, List.nil_append, List.cons.injEq] at hsplit
      rw [hsplit.1]
    | _ :: _ :: _, _, hlen =>
      simp only [List.length_cons] at hlen
      omega

/-- Witness for C5: `run_after_1s echo hello` sleeps 1 second, then requests
`echo`. -/
theorem C5_one_second_sleep_before_exec_witness :
    (2 : Int) ≤ 3 ∧
    (main sampleOS 3 ["run_after_1s", "echo", "hello"] (Proc.start [])).trace.filter
      Event.isSleep = [Event.sleep 1] :=
  ⟨by decide,
    (C5_one_second_sleep_before_exec sampleOS 3 ["run_after_1s", "echo", "hello"] []
      (by decide)).2.1⟩

/-! ## Successful replacement -/

/-- C6: for every invocation with `argc >= 2` in which the process-replace call
succeeds, the trace of the wrapper ends with that request: the wrapper writes
nothing and issues no exit of its own, and the output and exit status of the run
are those of the replacement program. -/
theorem C6_success_leaves_no_wrapper_effect (os : OS) (argc : Int) (argv env : List String)
    (b : Behaviour) (h : 2 ≤ argc)
    (hok : os.execvp argv[1]? (argv.drop 1) env = ExecOutcome.replaced b) :
    main os argc argv (Proc.start env) =
        { trace := [Event.sleep 1, Event.execvp argv[1]? (argv.drop 1) env],
          ending := Ending.replaced b } ∧
      (∀ ev ∈ (main os argc argv (Proc.start env)).trace,
        ev.isWrite = false ∧ ev.isExit = false) ∧
      (main os argc argv (Proc.start env)).writes = b.writes.map (fun w => (w.1, some w.2)) ∧
      (main os argc argv (Proc.start env)).status = b.status := by
  rw [main_replaced os argc argv env b h hok]
  refine ⟨rfl, ?_, rfl, rfl⟩
  intro ev hev
  simp only [List.mem_cons, List.mem_singleton, List.not_mem_nil, or_false] at hev
  rcases hev with rfl | rfl <;> exact ⟨rfl, rfl⟩

/-- Witness for C6: `run_after_1s echo hello` on the sample system yields the
output `hello` and the status 0 of `echo`. -/
theorem C6_success_leaves_no_wrapper_effect_witness :
    (2 : Int) ≤ 3 ∧
    (main sampleOS 3 ["run_after_1s", "echo", "hello"] (Proc.start [])).writes
      = [(Stream.stdout, some "hello\n")] ∧
    (main sampleOS 3 ["run_after_1s", "echo", "hello"] (Proc.start [])).status = 0 :=
  have w := C6_success_leaves_no_wrapper_effect sampleOS 3 ["run_after_1s", "echo", "hello"] []
    { writes := [(Stream.stdout, "hello\n")], status := 0 } (by decide) (by decide)
  ⟨by decide, w.2.2.1, w.2.2.2⟩

/-! ## Environment -/

/-- C9: for every invocation with `argc >= 2` the environment handed over by the
process-replace request is the environment the process was started with, and in
every state the run passes through the environment of the process is that same
environment. -/
theorem C9_environment_passed_unchanged (os : OS) (argc : Int) (argv env : List String)
    (k : Nat) (h : 2 ≤ argc) :
    (main os argc argv (Proc.start env)).trace.filterMap Event.execEnv = [env] ∧
    ∃ visited,
      runMachine os argc argv (k + 5) (Config.Start (Proc.start env))
        = some (visited, main os argc argv (Proc.start env)) ∧
      ∀ c ∈ visited, c.proc.environ = env := by
  constructor
  · obtain ⟨rest, htr, hrest⟩ := main_forward_shape os argc argv env h
    have hnil : rest.filterMap Event.execEnv = [] := by
      rw [List.filterMap_eq_nil_iff]
      intro a ha
      have := (hrest a ha).2
      cases a <;> simp_all [Event.execEnv, Event.isExec]
    rw [htr]
    simp only [List.filterMap_cons, Event.execEnv, hnil]
  · cases hout : os.execvp argv[1]? (argv.drop 1) env with
    | replaced b =>
      refine ⟨_, machine_replaced os argc argv (Proc.start env) k b h hout, ?_⟩
      intro c hc
      simp only [List.mem_cons, List.mem_singleton, List.not_mem_nil, or_false] at hc
      rcases hc with rfl | rfl | rfl | rfl | rfl <;> rfl
    | returned rc e =>
      refine ⟨_, machine_returned os argc argv (Proc.start env) k rc e h hout, ?_⟩
      intro c hc
      simp only [List.mem_cons, List.mem_singleton, List.not_mem_nil, or_false] at hc
      rcases hc with rfl | rfl | rfl | rfl | rfl <;> rfl

/-- Witness for C9: the environment `PATH=/bin`, `LANG=C` reaches the requested
program unchanged. -/
theorem C9_environment_passed_unchanged_witness :
    (2 : Int) ≤ 3 ∧
    (main sampleOS 3 ["run_after_1s", "env", "-0"]
      (Proc.start ["PATH=/bin", "LANG=C"])).trace.filterMap Event.execEnv
        = [["PATH=/bin", "LANG=C"]] :=
  ⟨by decide,
    (C9_environment_passed_unchanged sampleOS 3 ["run_after_1s", "env", "-0"]
      ["PATH=/bin", "LANG=C"] 0 (by decide)).1⟩

/-! ## Linear control flow -/

/-- C7: for every invocation and every outcome of the process-replace call, the
state machine finishes within five transitions with the run of `main`, along one
of the three linear paths; the run contains at most one exec request and at most
one sleep, and whatever follows an exec request is neither a sleep nor another
exec request. -/
theorem C7_linear_no_retry (os : OS) (argc : Int) (argv env : List String) (k : Nat) :
    (∃ visited,
      runMachine os argc argv (k + 5) (Config.Start (Proc.start env))
        = some (visited, main os argc argv (Proc.start env)) ∧
      visited.map Config.phase ∈ linearPaths ∧ (visited.map Config.phase).Nodup) ∧
    ((main os argc argv (Proc.start env)).trace.filter Event.isExec).length ≤ 1 ∧
    ((main os argc argv (Proc.start env)).trace.filter Event.isSleep).length ≤ 1 ∧
    ∀ pre f a v post,
      (main os argc argv (Proc.start env)).trace = pre ++ Event.execvp f a v :: post →
      ∀ ev ∈ post, ev.isSleep = false ∧ ev.isExec = false := by
  by_cases h2 : argc < 2
  · refine ⟨⟨_, machine_usage os argc argv (Proc.start env) (k + 2) h2, ?_, ?_⟩, ?_, ?_, ?_⟩
    · simp [linearPaths, Config.phase]
    · simp [Config.phase]
    · rw [main_usage os argc argv env h2]
      simp [List.filter, Event.isExec]
    · rw [main_usage os argc argv env h2]
      simp [List.filter, Event.isSleep]
    · intro pre f a v post hsplit
      rw [main_usage os argc argv env h2] at hsplit
      have hmem : Event.execvp f a v ∈ pre ++ Event.execvp f a v :: post :=
        List.mem_append_right _ (List.mem_cons_self _ _)
      rw [← hsplit] at hmem
      simp at hmem
  · have h : 2 ≤ argc := not_lt.mp h2
    obtain ⟨rest, htr, hrest⟩ := main_forward_shape os argc argv env h
    have hnilE : rest.filter Event.isExec = [] := by
      rw [List.filter_eq_nil_iff]
      intro a ha
      simp [(hrest a ha).2]
    have hnilS : rest.filter Event.isSleep = [] := by
      rw [List.filter_eq_nil_iff]
      intro a ha
      simp [(hrest a ha).1]
    refine ⟨?_, ?_, ?_, ?_⟩
    · cases hout : os.execvp argv[1]? (argv.drop 1) env with
      | replaced b =>
        refine ⟨_, machine_replaced os argc argv (Proc.start env) k b h hout, ?_, ?_⟩
        · simp [linearPaths, Config.phase]
        · simp [Config.phase]
      | returned rc e =>
        refine ⟨_, machine_returned os argc argv (Proc.start env) k rc e h hout, ?_, ?_⟩
        · simp [linearPaths, Config.phase]
        · simp [Config.phase]
    · rw [htr]
      simp [List.filter, Event.isExec, Event.isSleep, hnilE]
    · rw [htr]
      simp [List.filter, Event.isExec, Event.isSleep, hnilS]
    · intro pre f a v post hsplit
      rw [htr] at hsplit
      have hpost : post = rest :=
        after_exec_unique (Event.sleep 1) (Event.execvp f a v) rfl
          (fun x hx => (hrest x hx).2) rfl hsplit
      rw [hpost]
      exact hrest

end RunAfter1s
